import Mathlib

/-!
Verification of `graphql/utilities/ast_from_value.py` (function `ast_from_value`).

The Python function converts a runtime value into a GraphQL value AST node,
directed by a GraphQL input type.  We embed the relevant data shallowly:

* `Value` models the dynamically typed Python runtime value.  Python's `None`
  is `explicitNull`; the `INVALID` sentinel and float NaN (both recognised by
  `is_invalid`) are collapsed into the single constructor `invalid`.  Floats
  are carried as opaque text because their numeric content never influences
  the control flow modelled here.
* `Node` models the AST value nodes (`NullValueNode`, `IntValueNode`, ...).
  `listNode` carries `List (Option Node)` because the Python list
  comprehension at line 74 inserts `None` results verbatim.
* `TypeDesc` models `GraphQLInputType` as classified by the predicates
  `is_non_null_type`, `is_list_type`, `is_input_object_type`,
  `is_scalar_type`/`is_enum_type`; the constructor `unknown` stands for any
  type object for which all of those predicates are false (the fall-through
  to `raise TypeError("Unknown type ...")` at line 129).
* `Serialized` classifies the Python value returned by `type_.serialize`
  exactly by the `isinstance` checks the code performs: nullish
  (per `is_nullish`), `bool`, `int`, `float`, `str`, or anything else
  (which triggers `raise TypeError("Cannot convert value to AST ...")`).
* Exceptions are modelled with `Except`: `ConvError.cannotConvert` is the
  `TypeError` of line 127 and `ConvError.unknownType` the one of line 129.
  The Python return value `None` (meaning "no AST produced") is `.ok none`.
-/

namespace AstFromValue

/-- Python values returned by `type_.serialize`, classified by the
`isinstance` checks in lines 103-127 of the source. -/
inductive Serialized where
  | nullish : Serialized
  | boolS : Bool → Serialized
  | intS : Int → Serialized
  | floatS : String → Serialized
  | strS : String → Serialized
  | otherS : Serialized
deriving Repr, DecidableEq

/-- The dynamically typed Python runtime value. -/
inductive Value where
  | explicitNull : Value
  | invalid : Value
  | boolVal : Bool → Value
  | intVal : Int → Value
  | floatVal : String → Value
  | strVal : String → Value
  | listVal : List Value → Value
  | dictVal : List (String × Value) → Value
  | symVal : String → Value
deriving Repr

/-- GraphQL value AST nodes.  `listNode` holds `Option Node` entries because
the Python code inserts `None` placeholders for absent list elements. -/
inductive Node where
  | nullNode : Node
  | booleanNode : Bool → Node
  | intNode : String → Node
  | floatNode : String → Node
  | stringNode : String → Node
  | enumNode : String → Node
  | listNode : List (Option Node) → Node
  | objectNode : List (String × Node) → Node
deriving Repr

/-- A leaf (scalar or enum) input type: `isEnum` is `is_enum_type`,
`isID` is the identity test `type_ is GraphQLID`, and `serialize` is the
type's serializer, an external collaborator treated as an opaque function. -/
structure Leaf where
  isEnum : Bool
  isID : Bool
  serialize : Value → Serialized

/-- `GraphQLInputType` as classified by the shape predicates used in the
source.  `unknown` is any type that none of the predicates accept. -/
inductive TypeDesc where
  | nonNull : TypeDesc → TypeDesc
  | listType : TypeDesc → TypeDesc
  | inputObject : List (String × TypeDesc) → TypeDesc
  | leaf : Leaf → TypeDesc
  | unknown : TypeDesc

/-- The two `TypeError`s the function can raise. -/
inductive ConvError where
  | cannotConvert : ConvError
  | unknownType : ConvError
deriving Repr, DecidableEq

/-- Decimal digit test, `[0-9]`. -/
def isDigit (c : Char) : Bool := '0' ≤ c && c ≤ '9'

/-- The unsigned part of the pattern `0|[1-9][0-9]*`. -/
def digitsPart : List Char → Bool
  | [] => false
  | ['0'] => true
  | c :: rest => ('1' ≤ c && c ≤ '9') && rest.all isDigit

/-- The pattern `-?(0|[1-9][0-9]*)`. -/
def signedIntPart : List Char → Bool
  | '-' :: rest => digitsPart rest
  | l => digitsPart l

/-- `_re_integer_string.match(s)` where the regex is
`^-?(0|[1-9][0-9]*)$`.  Python's `$` also matches just before a final
newline, so a single trailing `'\n'` is tolerated. -/
def isIntegerString (s : String) : Bool :=
  signedIntPart s.data ||
    (match s.data.getLast? with
     | some c => c == '\n' && signedIntPart (s.data.dropLast)
     | none => false)

mutual

/-- Shallow embedding of `ast_from_value(value, type_)` (lines 36-129). -/
def astFromValue (value : Value) (type_ : TypeDesc) :
    Except ConvError (Option Node) :=
  match value, type_ with
  | value, .nonNull inner =>
    -- lines 53-58: unwrap, then censor an explicit null literal
    match astFromValue value inner with
    | .ok (some .nullNode) => .ok none
    | r => r
  | .explicitNull, _ =>
    -- line 61: only explicit None, not INVALID or NaN
    .ok (some .nullNode)
  | .invalid, _ =>
    -- line 65: INVALID or NaN
    .ok none
  | value, .listType itemType =>
    -- lines 70-78
    match value with
    | .listVal items =>
      match astList items itemType with
      | .ok nodes => .ok (some (.listNode nodes))
      | .error e => .error e
    | .dictVal entries =>
      -- a Mapping is Iterable in Python; iterating it yields its keys
      match astList (entries.map (fun e => Value.strVal e.1)) itemType with
      | .ok nodes => .ok (some (.listNode nodes))
      | .error e => .error e
    | v =>
      -- line 78: non-iterable (or string) value under a list type
      astFromValue v itemType
  | value, .inputObject fields =>
    -- lines 82-97
    match value with
    | .dictVal entries =>
      match astFields entries fields with
      | .ok fieldNodes => .ok (some (.objectNode fieldNodes))
      | .error e => .error e
    | _ => .ok none
  | value, .leaf l =>
    -- lines 99-127
    match l.serialize value with
    | .nullish => .ok none
    | .boolS b => .ok (some (.booleanNode b))
    | .intS n => .ok (some (.intNode (toString n)))
    | .floatS text => .ok (some (.floatNode text))
    | .strS s =>
      if l.isEnum then .ok (some (.enumNode s))
      else if l.isID && isIntegerString s then .ok (some (.intNode s))
      else .ok (some (.stringNode s))
    | .otherS => .error .cannotConvert
  | _, .unknown =>
    -- line 129
    .error .unknownType
termination_by (sizeOf type_, 0)

/-- The list comprehension of lines 74-76: convert each element with the
item type; a raised exception aborts the whole comprehension. -/
def astList (items : List Value) (itemType : TypeDesc) :
    Except ConvError (List (Option Node)) :=
  match items with
  | [] => .ok []
  | v :: vs =>
    match astFromValue v itemType with
    | .error e => .error e
    | .ok node =>
      match astList vs itemType with
      | .error e => .error e
      | .ok nodes => .ok (node :: nodes)
termination_by (sizeOf itemType, items.length + 1)

/-- The field loop of lines 86-96: iterate the declared fields in order,
converting the fields whose name occurs in the value and keeping the
non-`None` results. -/
def astFields (entries : List (String × Value))
    (fields : List (String × TypeDesc)) :
    Except ConvError (List (String × Node)) :=
  match fields with
  | [] => .ok []
  | (name, fieldType) :: rest =>
    match entries.lookup name with
    | none => astFields entries rest
    | some fieldValue =>
      match astFromValue fieldValue fieldType with
      | .error e => .error e
      | .ok none => astFields entries rest
      | .ok (some node) =>
        match astFields entries rest with
        | .error e => .error e
        | .ok nodes => .ok ((name, node) :: nodes)
termination_by (sizeOf fields, 0)

end

/-- Modelled from the spec: the `Int` leaf type (`GraphQLInt`), a scalar
collaborator whose implementation is not under `src/`; its serializer
returns the integer itself for integer inputs.  Inputs of other shapes are
irrelevant to the claims and are mapped to the unserializable marker. -/
def intLeaf : Leaf where
  isEnum := false
  isID := false
  serialize := fun v =>
    match v with
    | .intVal n => .intS n
    | _ => .otherS

/-- The `Int` scalar as a type descriptor. -/
def GraphQLInt : TypeDesc := .leaf intLeaf

/-- Modelled from the spec: the identifier ("ID") leaf (`GraphQLID`), a
scalar collaborator whose implementation is not under `src/`; its
serializer returns the string itself for string inputs and the decimal
text for integer inputs. -/
def idLeaf : Leaf where
  isEnum := false
  isID := true
  serialize := fun v =>
    match v with
    | .strVal s => .strS s
    | .intVal n => .strS (toString n)
    | _ => .otherS

/-- The ID scalar as a type descriptor. -/
def GraphQLID : TypeDesc := .leaf idLeaf

/-- Modelled from the spec: a leaf whose serializer reports the nullish
marker for every input (`is_nullish(serialized)` true, line 103). -/
def nullishLeaf : Leaf where
  isEnum := false
  isID := false
  serialize := fun _ => .nullish

/-- Modelled from the spec: an enum leaf whose serializer yields the enum
name as a string for string inputs. -/
def enumLeaf : Leaf where
  isEnum := true
  isID := false
  serialize := fun v =>
    match v with
    | .strVal s => .strS s
    | _ => .otherS

/-- The entry a converted list element contributes to a `listNode`:
an `ok` result is kept verbatim (`none` being the Absent placeholder).
The error arm is arbitrary; it is only evaluated under hypotheses that
exclude it. -/
def resultEntry (r : Except ConvError (Option Node)) : Option Node :=
  match r with
  | .ok n => n
  | .error _ => none

/-- The field list described by the spec for an input object: iterate the
declared fields in declaration order and keep `(name, node)` exactly for
the declared names present in the value whose conversion yields a node. -/
def specObjectFields (entries : List (String × Value))
    (fields : List (String × TypeDesc)) : List (String × Node) :=
  fields.filterMap (fun p =>
    match entries.lookup p.1 with
    | none => none
    | some fv =>
      match astFromValue fv p.2 with
      | .ok (some node) => some (p.1, node)
      | _ => none)

/-! ### Unfolding lemmas, one per branch of the source function -/

/-- Lines 53-58: a `NonNull` type unwraps, then censors a null literal. -/
theorem astFromValue_nonNull (v : Value) (inner : TypeDesc) :
    astFromValue v (.nonNull inner) =
      match astFromValue v inner with
      | .ok (some .nullNode) => .ok none
      | r => r := by
  cases v <;> simp [astFromValue]

/-- Line 61: an explicit `None` under any type that is not `NonNull`
becomes the null literal before any shape dispatch. -/
theorem astFromValue_explicitNull (t : TypeDesc) (h : ∀ i, t ≠ .nonNull i) :
    astFromValue .explicitNull t = .ok (some .nullNode) := by
  cases t
  case nonNull i => exact absurd rfl (h i)
  all_goals simp [astFromValue]

/-- Line 65: the `INVALID`/NaN sentinel yields no node, under every type
(under `NonNull` the inner `None` result propagates unchanged). -/
theorem astFromValue_invalid : (t : TypeDesc) → astFromValue .invalid t = .ok none
  | .nonNull inner => by rw [astFromValue_nonNull, astFromValue_invalid inner]
  | .listType _ => by simp [astFromValue]
  | .inputObject _ => by simp [astFromValue]
  | .leaf _ => by simp [astFromValue]
  | .unknown => by simp [astFromValue]

/-- Lines 73-77: a Python list under a list type converts elementwise. -/
theorem astFromValue_list_listVal (items : List Value) (itemType : TypeDesc) :
    astFromValue (.listVal items) (.listType itemType) =
      match astList items itemType with
      | .ok nodes => .ok (some (.listNode nodes))
      | .error e => .error e := by
  simp [astFromValue]

/-- Line 78: a non-iterable (or string) value under a list type is
converted with the item type directly, with no `List` wrapper. -/
theorem astFromValue_list_coerce (v : Value) (itemType : TypeDesc)
    (h1 : v ≠ .explicitNull) (h2 : v ≠ .invalid)
    (h3 : ∀ l, v ≠ .listVal l) (h4 : ∀ es, v ≠ .dictVal es) :
    astFromValue v (.listType itemType) = astFromValue v itemType := by
  cases v
  case explicitNull => exact absurd rfl h1
  case invalid => exact absurd rfl h2
  case listVal l => exact absurd rfl (h3 l)
  case dictVal es => exact absurd rfl (h4 es)
  all_goals simp [astFromValue]

/-- Lines 82-97: a mapping under an input-object type converts its
declared fields. -/
theorem astFromValue_inputObject_dict (entries : List (String × Value))
    (fields : List (String × TypeDesc)) :
    astFromValue (.dictVal entries) (.inputObject fields) =
      match astFields entries fields with
      | .ok fieldNodes => .ok (some (.objectNode fieldNodes))
      | .error e => .error e := by
  simp [astFromValue]

/-- Lines 83-84: a non-mapping value under an input-object type yields no
node. -/
theorem astFromValue_inputObject_nonMapping (v : Value)
    (fields : List (String × TypeDesc))
    (h1 : v ≠ .explicitNull) (h2 : v ≠ .invalid)
    (h3 : ∀ es, v ≠ .dictVal es) :
    astFromValue v (.inputObject fields) = .ok none := by
  cases v
  case explicitNull => exact absurd rfl h1
  case invalid => exact absurd rfl h2
  case dictVal es => exact absurd rfl (h3 es)
  all_goals simp [astFromValue]

/-- Lines 99-127: leaf dispatch over the serialized value. -/
theorem astFromValue_leaf (v : Value) (l : Leaf)
    (h1 : v ≠ .explicitNull) (h2 : v ≠ .invalid) :
    astFromValue v (.leaf l) =
      match l.serialize v with
      | .nullish => .ok none
      | .boolS b => .ok (some (.booleanNode b))
      | .intS n => .ok (some (.intNode (toString n)))
      | .floatS text => .ok (some (.floatNode text))
      | .strS s =>
        if l.isEnum then .ok (some (.enumNode s))
        else if l.isID && isIntegerString s then .ok (some (.intNode s))
        else .ok (some (.stringNode s))
      | .otherS => .error .cannotConvert := by
  cases v
  case explicitNull => exact absurd rfl h1
  case invalid => exact absurd rfl h2
  all_goals simp [astFromValue]

/-- Line 129: an unrecognized type shape raises `TypeError`. -/
theorem astFromValue_unknown (v : Value)
    (h1 : v ≠ .explicitNull) (h2 : v ≠ .invalid) :
    astFromValue v .unknown = .error .unknownType := by
  cases v
  case explicitNull => exact absurd rfl h1
  case invalid => exact absurd rfl h2
  all_goals simp [astFromValue]

/-- `astList` on the empty list. -/
theorem astList_nil (itemType : TypeDesc) : astList [] itemType = .ok [] := by
  simp [astList]

/-- `astList` on a cons cell. -/
theorem astList_cons (v : Value) (vs : List Value) (itemType : TypeDesc) :
    astList (v :: vs) itemType =
      match astFromValue v itemType with
      | .error e => .error e
      | .ok node =>
        match astList vs itemType with
        | .error e => .error e
        | .ok nodes => .ok (node :: nodes) := by
  simp [astList]

/-- `astFields` with no declared fields. -/
theorem astFields_nil (entries : List (String × Value)) :
    astFields entries [] = .ok [] := by
  simp [astFields]

/-- `astFields` on a cons cell of declared fields. -/
theorem astFields_cons (entries : List (String × Value)) (name : String)
    (fieldType : TypeDesc) (rest : List (String × TypeDesc)) :
    astFields entries ((name, fieldType) :: rest) =
      match entries.lookup name with
      | none => astFields entries rest
      | some fieldValue =>
        match astFromValue fieldValue fieldType with
        | .error e => .error e
        | .ok none => astFields entries rest
        | .ok (some node) =>
          match astFields entries rest with
          | .error e => .error e
          | .ok nodes => .ok ((name, node) :: nodes) := by
  simp [astFields]

/-! ### Derived characterizations used by the claims -/

/-- When no element conversion raises, `astList` returns exactly the
positional list of element results. -/
theorem astList_eq_map (vs : List Value) (itemType : TypeDesc)
    (h : ∀ v ∈ vs, ∀ e, astFromValue v itemType ≠ .error e) :
    astList vs itemType =
      .ok (vs.map (fun v => resultEntry (astFromValue v itemType))) := by
  induction vs with
  | nil => simp [astList_nil]
  | cons v vs ih =>
    rw [astList_cons]
    rcases hr : astFromValue v itemType with e | node
    · exact absurd hr (h v (List.mem_cons_self _ _) e)
    · rw [ih (fun w hw e => h w (List.mem_cons_of_mem _ hw) e)]
      simp [resultEntry, hr]

/-- When no converted field raises, `astFields` builds exactly the field
list described by the spec. -/
theorem astFields_eq_spec (entries : List (String × Value))
    (fields : List (String × TypeDesc))
    (hok : ∀ n ft fv, (n, ft) ∈ fields → entries.lookup n = some fv →
      ∀ e, astFromValue fv ft ≠ .error e) :
    astFields entries fields = .ok (specObjectFields entries fields) := by
  induction fields with
  | nil => simp [astFields_nil, specObjectFields]
  | cons p rest ih =>
    obtain ⟨name, ftype⟩ := p
    have hok' : ∀ n ft fv, (n, ft) ∈ rest → entries.lookup n = some fv →
        ∀ e, astFromValue fv ft ≠ .error e :=
      fun n ft fv hm => hok n ft fv (List.mem_cons_of_mem _ hm)
    rw [astFields_cons]
    rcases hl : entries.lookup name with _ | fv
    · rw [ih hok']
      simp [specObjectFields, hl]
    · rcases hr : astFromValue fv ftype with e | node
      · exact absurd hr (hok name ftype fv (List.mem_cons_self _ _) hl e)
      · rcases node with _ | node
        · rw [ih hok']
          simp [specObjectFields, hl, hr]
        · rw [ih hok']
          simp [specObjectFields, hl, hr]

/-- When no declared field name occurs in the value, the built field list
is empty. -/
theorem astFields_allAbsent (entries : List (String × Value))
    (fields : List (String × TypeDesc))
    (h : ∀ n ft, (n, ft) ∈ fields → entries.lookup n = none) :
    astFields entries fields = .ok [] := by
  induction fields with
  | nil => exact astFields_nil entries
  | cons p rest ih =>
    obtain ⟨name, ftype⟩ := p
    rw [astFields_cons, h name ftype (List.mem_cons_self _ _)]
    exact ih fun n ft hm => h n ft (List.mem_cons_of_mem _ hm)

/-- Converting an explicit null produces either the null literal or no
node, never anything else. -/
theorem astFromValue_explicitNull_cases : (t : TypeDesc) →
    astFromValue .explicitNull t = .ok (some .nullNode) ∨
      astFromValue .explicitNull t = .ok none
  | .nonNull i => by
    rcases astFromValue_explicitNull_cases i with h | h <;>
      rw [astFromValue_nonNull, h] <;> simp
  | .listType i =>
    Or.inl (astFromValue_explicitNull _ (fun i h => nomatch h))
  | .inputObject fs =>
    Or.inl (astFromValue_explicitNull _ (fun i h => nomatch h))
  | .leaf l =>
    Or.inl (astFromValue_explicitNull _ (fun i h => nomatch h))
  | .unknown =>
    Or.inl (astFromValue_explicitNull _ (fun i h => nomatch h))

/-- An explicit null under a `NonNull` type yields no node. -/
theorem astFromValue_explicitNull_nonNull (u : TypeDesc) :
    astFromValue .explicitNull (.nonNull u) = .ok none := by
  rcases astFromValue_explicitNull_cases u with h | h <;>
    rw [astFromValue_nonNull, h]

/-- The null-censoring step of the `NonNull` branch can never produce the
null literal. -/
theorem censorNull_ne_null (r : Except ConvError (Option Node)) :
    ((match r with
      | .ok (some .nullNode) => .ok none
      | r => r) : Except ConvError (Option Node)) ≠ .ok (some Node.nullNode) := by
  rcases r with e | n
  · simp
  · rcases n with _ | node
    · simp
    · cases node <;> simp

/-! ### The claims -/

/-- C1: for every runtime value `v` and type descriptor `tdesc`,
`convert(v, NonNull(t))` never returns the `Null` node: it computes
`convert(v, t)` and, if that result is the `Null` node, returns Absent;
otherwise it returns that result unchanged (Absent included,
propagating). -/
theorem nonNull_never_returns_null :
    (∀ (v : Value) (t : TypeDesc),
      astFromValue v (.nonNull t) ≠ .ok (some .nullNode)) ∧
    (∀ (v : Value) (t : TypeDesc),
      (astFromValue v t = .ok (some .nullNode) →
        astFromValue v (.nonNull t) = .ok none) ∧
      (astFromValue v t ≠ .ok (some .nullNode) →
        astFromValue v (.nonNull t) = astFromValue v t)) := by
  constructor
  · intro v t
    rw [astFromValue_nonNull]
    exact censorNull_ne_null (astFromValue v t)
  · intro v t
    constructor
    · intro h
      rw [astFromValue_nonNull, h]
    · intro h
      rw [astFromValue_nonNull]
      rcases hr : astFromValue v t with e | n
      · rfl
      · rcases n with _ | node
        · rfl
        · cases node
          case nullNode => exact absurd hr h
          all_goals rfl

/-- Witness for C1: a null under `NonNull` is censored to Absent, and a
non-null inner result (here a raised error) propagates unchanged. -/
theorem nonNull_never_returns_null_witness :
    astFromValue .explicitNull (.nonNull .unknown) = .ok none ∧
    astFromValue (.intVal 3) (.nonNull .unknown) = .error .unknownType := by
  constructor
  · exact (nonNull_never_returns_null.2 .explicitNull .unknown).1
      (by simp [astFromValue])
  · have h := (nonNull_never_returns_null.2 (.intVal 3) .unknown).2
      (by simp [astFromValue])
    rw [h]
    simp [astFromValue]

/-- C2 as stated is false at `convert(5, List(Int))`: the single-value
coercion of line 78 returns the converted item directly, producing
`Int("5")`, not `List([Int("5")])`. -/
theorem list_singleValue_counterexample :
    astFromValue (.intVal 5) (.listType GraphQLInt) = .ok (some (.intNode "5")) ∧
    astFromValue (.intVal 5) (.listType GraphQLInt) ≠
      .ok (some (.listNode [some (.intNode "5")])) := by
  have h : astFromValue (.intVal 5) (.listType GraphQLInt) =
      .ok (some (.intNode "5")) := by
    simp [astFromValue, GraphQLInt, intLeaf]
    decide
  refine ⟨h, ?_⟩
  rw [h]
  simp

/-- C2 amended: for every non-iterable runtime value `v` (strings count as
non-iterable here) that is neither ExplicitNull nor the Invalid/NaN
sentinel, `convert(v, List(item))` returns `convert(v, item)` directly,
without wrapping the result in a `List` node; in particular
`convert(5, List(Int)) = Int("5")`. -/
theorem list_singleValue_coercion (v : Value) (itemType : TypeDesc)
    (h1 : v ≠ .explicitNull) (h2 : v ≠ .invalid)
    (h3 : ∀ l, v ≠ .listVal l) (h4 : ∀ es, v ≠ .dictVal es) :
    astFromValue v (.listType itemType) = astFromValue v itemType :=
  astFromValue_list_coerce v itemType h1 h2 h3 h4

/-- Witness for the amended C2 at `convert(5, List(Int))`. -/
theorem list_singleValue_coercion_witness :
    astFromValue (.intVal 5) (.listType GraphQLInt) =
      .ok (some (.intNode "5")) := by
  rw [list_singleValue_coercion (.intVal 5) GraphQLInt
    (fun h => nomatch h) (fun h => nomatch h)
    (fun l h => nomatch h) (fun es h => nomatch h)]
  simp [astFromValue, GraphQLInt, intLeaf]
  decide

/-- C3: for every leaf type and value whose serialize result is a string
`s`: if the leaf is an enum the result is an `Enum` node with text `s`;
else if the leaf is the identifier ("ID") leaf and `s` matches
`^-?(0|[1-9][0-9]*)$` the result is an `Int` node with that exact text;
otherwise it is a `String` node. -/
theorem leaf_string_dispatch (v : Value) (l : Leaf) (s : String)
    (h1 : v ≠ .explicitNull) (h2 : v ≠ .invalid)
    (hs : l.serialize v = .strS s) :
    astFromValue v (.leaf l) =
      .ok (some (if l.isEnum then .enumNode s
        else if l.isID && isIntegerString s then .intNode s
        else .stringNode s)) := by
  rw [astFromValue_leaf v l h1 h2, hs]
  cases he : l.isEnum <;> cases hid : l.isID && isIntegerString s <;>
    simp [he, hid]

/-- Witness for C3: the four ID examples of the claim, and an enum
example. -/
theorem leaf_string_dispatch_witness :
    astFromValue (.strVal "123") GraphQLID = .ok (some (.intNode "123")) ∧
    astFromValue (.strVal "-7") GraphQLID = .ok (some (.intNode "-7")) ∧
    astFromValue (.strVal "abc123") GraphQLID =
      .ok (some (.stringNode "abc123")) ∧
    astFromValue (.strVal "007") GraphQLID = .ok (some (.stringNode "007")) ∧
    astFromValue (.strVal "RED") (.leaf enumLeaf) =
      .ok (some (.enumNode "RED")) := by
  refine ⟨?_, ?_, ?_, ?_, ?_⟩
  · rw [show GraphQLID = TypeDesc.leaf idLeaf from rfl,
      leaf_string_dispatch (.strVal "123") idLeaf "123"
        (fun h => nomatch h) (fun h => nomatch h) rfl,
      show isIntegerString "123" = true from by decide]
    simp [idLeaf]
  · rw [show GraphQLID = TypeDesc.leaf idLeaf from rfl,
      leaf_string_dispatch (.strVal "-7") idLeaf "-7"
        (fun h => nomatch h) (fun h => nomatch h) rfl,
      show isIntegerString "-7" = true from by decide]
    simp [idLeaf]
  · rw [show GraphQLID = TypeDesc.leaf idLeaf from rfl,
      leaf_string_dispatch (.strVal "abc123") idLeaf "abc123"
        (fun h => nomatch h) (fun h => nomatch h) rfl,
      show isIntegerString "abc123" = false from by decide]
    simp [idLeaf]
  · rw [show GraphQLID = TypeDesc.leaf idLeaf from rfl,
      leaf_string_dispatch (.strVal "007") idLeaf "007"
        (fun h => nomatch h) (fun h => nomatch h) rfl,
      show isIntegerString "007" = false from by decide]
    simp [idLeaf]
  · rw [leaf_string_dispatch (.strVal "RED") enumLeaf "RED"
      (fun h => nomatch h) (fun h => nomatch h) rfl]
    simp [enumLeaf]

/-- C4: a `TypeError` is raised if and only if either (a) the type is a
leaf whose serializer returned a non-nullish value outside
boolean/integer/float/string, or (b) the type descriptor matches none of
the recognized shapes; every other "cannot represent" situation —
invalid/NaN input, non-mapping value under an object type, nullish
serialization result, a non-null position resolving to null — yields the
normal Absent result, never an exception. -/
theorem typeError_exactly_two_conditions :
    (∀ (v : Value) (l : Leaf), v ≠ .explicitNull → v ≠ .invalid →
      ((∃ e, astFromValue v (.leaf l) = .error e) ↔
        l.serialize v = .otherS)) ∧
    (∀ (v : Value) (l : Leaf), v ≠ .explicitNull → v ≠ .invalid →
      l.serialize v = .otherS →
      astFromValue v (.leaf l) = .error .cannotConvert) ∧
    (∀ v : Value, v ≠ .explicitNull → v ≠ .invalid →
      astFromValue v .unknown = .error .unknownType) ∧
    (∀ t : TypeDesc, astFromValue .invalid t = .ok none) ∧
    (∀ (v : Value) (fields : List (String × TypeDesc)),
      v ≠ .explicitNull → v ≠ .invalid → (∀ es, v ≠ .dictVal es) →
      astFromValue v (.inputObject fields) = .ok none) ∧
    (∀ (v : Value) (l : Leaf), v ≠ .explicitNull → v ≠ .invalid →
      l.serialize v = .nullish → astFromValue v (.leaf l) = .ok none) ∧
    (∀ (v : Value) (t : TypeDesc),
      astFromValue v t = .ok (some .nullNode) →
      astFromValue v (.nonNull t) = .ok none) := by
  refine ⟨?_, ?_, ?_, astFromValue_invalid, ?_, ?_, ?_⟩
  · intro v l h1 h2
    rw [astFromValue_leaf v l h1 h2]
    rcases hs : l.serialize v with _ | b | n | ftext | s | _ <;> simp
    split
    · simp
    · split <;> simp
  · intro v l h1 h2 hs
    rw [astFromValue_leaf v l h1 h2, hs]
  · intro v h1 h2
    exact astFromValue_unknown v h1 h2
  · intro v fields h1 h2 h3
    exact astFromValue_inputObject_nonMapping v fields h1 h2 h3
  · intro v l h1 h2 hs
    rw [astFromValue_leaf v l h1 h2, hs]
  · intro v t h
    rw [astFromValue_nonNull, h]

/-- Witness for C4: an unserializable leaf result raises, an unknown type
shape raises, and the invalid sentinel, a non-mapping under an object
type, and a nullish serialization all yield Absent. -/
theorem typeError_exactly_two_conditions_witness :
    astFromValue (.symVal "x") GraphQLInt = .error .cannotConvert ∧
    astFromValue (.boolVal true) .unknown = .error .unknownType ∧
    astFromValue .invalid GraphQLInt = .ok none ∧
    astFromValue (.intVal 3) (.inputObject []) = .ok none ∧
    astFromValue (.symVal "y") (.leaf nullishLeaf) = .ok none := by
  refine ⟨?_, ?_, ?_, ?_, ?_⟩
  · exact typeError_exactly_two_conditions.2.1 (.symVal "x") intLeaf
      (fun h => nomatch h) (fun h => nomatch h) rfl
  · exact typeError_exactly_two_conditions.2.2.1 (.boolVal true)
      (fun h => nomatch h) (fun h => nomatch h)
  · exact typeError_exactly_two_conditions.2.2.2.1 GraphQLInt
  · exact typeError_exactly_two_conditions.2.2.2.2.1 (.intVal 3) []
      (fun h => nomatch h) (fun h => nomatch h) (fun es h => nomatch h)
  · exact typeError_exactly_two_conditions.2.2.2.2.2.1 (.symVal "y")
      nullishLeaf (fun h => nomatch h) (fun h => nomatch h) rfl

/-- C5: for every input-object type and keyed-mapping value, the result is
an `Object` node whose field list iterates the declared fields in
declaration order, appending `(name, convert(value[name], field.type))`
exactly for the declared names present in the value whose conversion is
not Absent; declared names absent from the value contribute nothing, and
a non-mapping value yields Absent.  (The no-exception hypothesis excludes
a raised `TypeError` aborting the loop.) -/
theorem inputObject_field_construction :
    (∀ (entries : List (String × Value)) (fields : List (String × TypeDesc)),
      (∀ n ft fv, (n, ft) ∈ fields → entries.lookup n = some fv →
        ∀ e, astFromValue fv ft ≠ .error e) →
      astFromValue (.dictVal entries) (.inputObject fields) =
        .ok (some (.objectNode (specObjectFields entries fields)))) ∧
    (∀ (v : Value) (fields : List (String × TypeDesc)),
      v ≠ .explicitNull → v ≠ .invalid → (∀ es, v ≠ .dictVal es) →
      astFromValue v (.inputObject fields) = .ok none) := by
  constructor
  · intro entries fields hok
    rw [astFromValue_inputObject_dict, astFields_eq_spec entries fields hok]
  · intro v fields h1 h2 h3
    exact astFromValue_inputObject_nonMapping v fields h1 h2 h3

/-- Witness for C5: the spec's example — fields `{a: Int, b: Int}` with
value `{a: 1}` give `Object([(a, Int("1"))])`, omitting `b`. -/
theorem inputObject_field_construction_witness :
    astFromValue (.dictVal [("a", .intVal 1)])
        (.inputObject [("a", GraphQLInt), ("b", GraphQLInt)]) =
      .ok (some (.objectNode [("a", .intNode "1")])) := by
  have hok : ∀ n ft fv,
      (n, ft) ∈ [("a", GraphQLInt), ("b", GraphQLInt)] →
      (List.lookup n [("a", Value.intVal 1)]) = some fv →
      ∀ e, astFromValue fv ft ≠ .error e := by
    intro n ft fv hmem hlook e hcontra
    simp at hmem
    rcases hmem with ⟨hn, hft⟩ | ⟨hn, hft⟩ <;> subst hn <;> subst hft <;>
      simp [List.lookup] at hlook
    subst hlook
    simp [astFromValue, GraphQLInt, intLeaf] at hcontra
  rw [inputObject_field_construction.1 [("a", .intVal 1)]
    [("a", GraphQLInt), ("b", GraphQLInt)] hok]
  simp [specObjectFields, List.lookup, astFromValue, GraphQLInt, intLeaf]
  decide

/-- C6: for every list value `[v1..vn]` under `List(item)`, the result is
a `List` node with exactly `n` entries where entry `i` is
`convert(vi, item)`; Absent entries are kept positionally (not filtered
out and not replaced by the `Null` node).  (The no-exception hypothesis
excludes a raised `TypeError` aborting the comprehension.) -/
theorem list_elementwise (vs : List Value) (itemType : TypeDesc)
    (h : ∀ v ∈ vs, ∀ e, astFromValue v itemType ≠ .error e) :
    astFromValue (.listVal vs) (.listType itemType) =
      .ok (some (.listNode
        (vs.map (fun v => resultEntry (astFromValue v itemType))))) ∧
    (vs.map (fun v => resultEntry (astFromValue v itemType))).length =
      vs.length := by
  refine ⟨?_, by simp⟩
  rw [astFromValue_list_listVal, astList_eq_map vs itemType h]

/-- Witness for C6: `[1, INVALID, 3]` under `List(Int)` keeps the Absent
placeholder of the middle element at its position. -/
theorem list_elementwise_witness :
    astFromValue (.listVal [.intVal 1, .invalid, .intVal 3])
        (.listType GraphQLInt) =
      .ok (some (.listNode [some (.intNode "1"), none, some (.intNode "3")])) := by
  have h : ∀ v ∈ [Value.intVal 1, Value.invalid, Value.intVal 3],
      ∀ e, astFromValue v GraphQLInt ≠ .error e := by
    intro v hv e
    simp at hv
    rcases hv with h | h | h <;> subst h <;>
      simp [astFromValue, GraphQLInt, intLeaf]
  rw [(list_elementwise [.intVal 1, .invalid, .intVal 3] GraphQLInt h).1]
  simp [resultEntry, astFromValue, GraphQLInt, intLeaf]
  decide

/-- C7: an explicit null converts to the `Null` node under every type that
is not `NonNull` (the null check precedes shape dispatch); the
Invalid/Missing/NaN sentinel converts to Absent; and an explicit null
under `NonNull` converts to Absent. -/
theorem null_and_invalid_handling :
    (∀ t : TypeDesc, (∀ i, t ≠ .nonNull i) →
      astFromValue .explicitNull t = .ok (some .nullNode)) ∧
    (∀ t : TypeDesc, astFromValue .invalid t = .ok none) ∧
    (∀ u : TypeDesc, astFromValue .explicitNull (.nonNull u) = .ok none) :=
  ⟨astFromValue_explicitNull, astFromValue_invalid,
    astFromValue_explicitNull_nonNull⟩

/-- Witness for C7 at concrete types. -/
theorem null_and_invalid_handling_witness :
    astFromValue .explicitNull (.listType .unknown) = .ok (some .nullNode) ∧
    astFromValue .invalid .unknown = .ok none ∧
    astFromValue .explicitNull (.nonNull .unknown) = .ok none :=
  ⟨null_and_invalid_handling.1 (.listType .unknown) (fun _ h => nomatch h),
   null_and_invalid_handling.2.1 .unknown,
   null_and_invalid_handling.2.2 .unknown⟩

/-- C9: the conversion is total on every value / type-descriptor pair —
the embedding is accepted by the termination checker with the measure
"size of the type descriptor" because every recursive call receives a
strictly smaller descriptor (the non-null inner type, the list item type,
or an input-object field type) — and every run ends with a node, Absent,
or one of the two specified `TypeError` outcomes. -/
theorem conversion_total (v : Value) (t : TypeDesc) :
    astFromValue v t = .ok none ∨
    (∃ n, astFromValue v t = .ok (some n)) ∨
    astFromValue v t = .error .cannotConvert ∨
    astFromValue v t = .error .unknownType := by
  rcases h : astFromValue v t with e | n
  · cases e
    · exact Or.inr (Or.inr (Or.inl rfl))
    · exact Or.inr (Or.inr (Or.inr rfl))
  · rcases n with _ | node
    · exact Or.inl rfl
    · exact Or.inr (Or.inl ⟨node, rfl⟩)

/-- C10: a keyed-mapping value under an input-object type never yields
Absent: whenever the conversion returns (rather than raising), the result
is an `Object` node — even for an empty mapping or one sharing no key
with the declared fields, which give an `Object` node with an empty field
list. -/
theorem inputObject_never_absent :
    (∀ (entries : List (String × Value)) (fields : List (String × TypeDesc)),
      astFromValue (.dictVal entries) (.inputObject fields) ≠ .ok none) ∧
    (∀ (entries : List (String × Value)) (fields : List (String × TypeDesc))
      (r : Option Node),
      astFromValue (.dictVal entries) (.inputObject fields) = .ok r →
      ∃ fs, r = some (.objectNode fs)) ∧
    (∀ fields : List (String × TypeDesc),
      astFromValue (.dictVal []) (.inputObject fields) =
        .ok (some (.objectNode []))) ∧
    (∀ (entries : List (String × Value)) (fields : List (String × TypeDesc)),
      (∀ n ft, (n, ft) ∈ fields → entries.lookup n = none) →
      astFromValue (.dictVal entries) (.inputObject fields) =
        .ok (some (.objectNode []))) := by
  have hobj : ∀ (entries : List (String × Value))
      (fields : List (String × TypeDesc)) (r : Option Node),
      astFromValue (.dictVal entries) (.inputObject fields) = .ok r →
      ∃ fs, r = some (.objectNode fs) := by
    intro entries fields r h
    rw [astFromValue_inputObject_dict] at h
    rcases hf : astFields entries fields with e | fs
    · rw [hf] at h
      exact absurd h (by simp)
    · rw [hf] at h
      simp at h
      exact ⟨fs, h.symm⟩
  refine ⟨?_, hobj, ?_, ?_⟩
  · intro entries fields h
    rcases hobj entries fields none h with ⟨fs, hfs⟩
    exact nomatch hfs
  · intro fields
    rw [astFromValue_inputObject_dict,
      astFields_allAbsent [] fields (fun n ft _ => rfl)]
  · intro entries fields h
    rw [astFromValue_inputObject_dict, astFields_allAbsent entries fields h]

/-- Witness for C10: an empty mapping and a disjoint-key mapping both give
an `Object` node with no fields. -/
theorem inputObject_never_absent_witness :
    astFromValue (.dictVal []) (.inputObject [("a", GraphQLInt)]) =
      .ok (some (.objectNode [])) ∧
    astFromValue (.dictVal [("x", .intVal 1)])
        (.inputObject [("a", GraphQLInt)]) =
      .ok (some (.objectNode [])) := by
  constructor
  · exact inputObject_never_absent.2.2.1 [("a", GraphQLInt)]
  · refine inputObject_never_absent.2.2.2 [("x", .intVal 1)]
      [("a", GraphQLInt)] ?_
    intro n ft hmem
    simp at hmem
    rcases hmem with ⟨hn, _⟩
    subst hn
    simp [List.lookup]

end AstFromValue
